import Mathlib

/-!
Verification development for a dynamic tabular data store (Databases →
Tables → Columns/Rows → Values) exposed over HTTP.  The definitions below
are a shallow embedding of the Python source (Django models, DRF
serializers and viewsets): `db/models.py`, `db/serializers.py`,
`db/views.py`.  Machine-level details that the claims do not touch
(HTTP marshaling, pagination, admin) are not modelled; everything the
claims mention is translated directly from the source.
-/

/-- Model of the Python/JSON values that can appear in a column descriptor
or in a Value's `info["value"]`.  `null` is Python `None`; Python `bool`
is a distinct constructor because `isinstance(b, int)` is `True` for
booleans while `isinstance(b, float)` is `False`.  Floats are modelled as
rationals: no claim exercises rounding, only the runtime tag matters. -/
inductive PyVal where
  | null : PyVal
  | bool : Bool → PyVal
  | int : Int → PyVal
  | float : Rat → PyVal
  | str : String → PyVal
deriving DecidableEq

/-- Numeric content of a Python value, if it is a number.  Python booleans
are the integers 0 and 1 for `==` purposes. -/
def pyNum (v : PyVal) : Option Rat :=
  match v with
  | .bool b => some (if b then 1 else 0)
  | .int n => some (n : Rat)
  | .float q => some q
  | _ => Option.none

/-- Python `==` on the modelled values: numbers compare by numeric value
across bool/int/float, strings by content, `None` only to itself. -/
def pyEq (a b : PyVal) : Bool :=
  match pyNum a, pyNum b with
  | some x, some y => decide (x = y)
  | _, _ =>
    match a, b with
    | .str s, .str t => decide (s = t)
    | .null, .null => true
    | _, _ => false

/-- Python `v in l` for a list, via `==`. -/
def pyMem (v : PyVal) (l : List PyVal) : Bool :=
  l.any (pyEq v)

/-- Errors raised by the modelled code.  `typeMismatch` is the
`ValidationError` raised by `Column.ColumnTypes.validate` (its message
names the value and the column type); `notInEnum` the one raised by
`Column.validate_value`; `validationError` covers the remaining
field-scoped `ValidationError`s by message; `typeError` and `indexError`
are the uncaught Python exceptions `TypeError` and `IndexError`. -/
inductive PyErr where
  | typeMismatch (columnType : String) (value : PyVal)
  | notInEnum (value : PyVal) (availableValues : List PyVal)
  | validationError (msg : String)
  | typeError
  | indexError
deriving DecidableEq

/-- Decidable equality of results, so that concrete runs of the modelled
operations can be checked by `decide`. -/
instance {ε α : Type} [DecidableEq ε] [DecidableEq α] : DecidableEq (Except ε α) :=
  fun x y =>
    match x, y with
    | .ok a, .ok b =>
      if h : a = b then isTrue (by rw [h])
      else isFalse (fun hc => by injection hc; contradiction)
    | .error a, .error b =>
      if h : a = b then isTrue (by rw [h])
      else isFalse (fun hc => by injection hc; contradiction)
    | .ok _, .error _ => isFalse (fun hc => Except.noConfusion hc)
    | .error _, .ok _ => isFalse (fun hc => Except.noConfusion hc)

/-- Python `isinstance(v, int)`: true for ints and for bools (bool is a
subclass of int). -/
def intLike (v : PyVal) : Bool :=
  match v with
  | .bool _ => true
  | .int _ => true
  | _ => false

/-- Python `isinstance(v, float)`: true only for floats (not for ints,
not for bools). -/
def floatLike (v : PyVal) : Bool :=
  match v with
  | .float _ => true
  | _ => false

/-- Python `isinstance(v, str)`, returning the string. -/
def strVal (v : PyVal) : Option String :=
  match v with
  | .str s => some s
  | _ => Option.none

/-- Regex word character `\w` (ASCII): letters, digits, underscore. -/
def wordChar (c : Char) : Bool :=
  c.isAlphanum || c = '_'

/-- Character class `[A-Za-z0-9._%+-]` of the source email regex. -/
def localChar (c : Char) : Bool :=
  c.isAlphanum || c = '.' || c = '_' || c = '%' || c = '+' || c = '-'

/-- Character class `[A-Za-z0-9.-]` of the source email regex. -/
def domainChar (c : Char) : Bool :=
  c.isAlphanum || c = '.' || c = '-'

/-- Character class `[A-Z|a-z]` of the source email regex
(`db/models.py` line 47).  Note the literal `|` inside the class: the
class accepts the vertical bar in addition to the letters. -/
def tldChar (c : Char) : Bool :=
  c.isUpper || c = '|' || c.isLower

/-- Character class `[A-Za-z]` as written in the spec's version of the
email pattern (for comparison with the source class `[A-Z|a-z]`). -/
def specTldChar (c : Char) : Bool :=
  c.isUpper || c.isLower

/-- Tail of the email regex after the last dot: at least two characters,
all in the given class. -/
def tldOk (p : Char → Bool) (t : List Char) : Bool :=
  decide (2 ≤ t.length) && t.all p

/-- Backtracking search for the split `domain "." tld` of the part after
the `@`: `dom` is the portion already committed to the domain.  This is
the set of splits the regex engine explores for
`[A-Za-z0-9.-]+\.<tld>{2,}` against `dom ++ rest`. -/
def domainSplit (p : Char → Bool) (dom rest : List Char) : Bool :=
  match rest with
  | [] => false
  | c :: rs =>
    (decide (c = '.') && !dom.isEmpty && dom.all domainChar && tldOk p rs)
      || domainSplit p (dom ++ [c]) rs

/-- Split a character list at the first occurrence of `c`. -/
def splitAtFirst (c : Char) : List Char → Option (List Char × List Char)
  | [] => Option.none
  | x :: xs =>
    if x = c then some ([], xs)
    else (splitAtFirst c xs).map (fun pr => (x :: pr.1, pr.2))

/-- Full match of `\b[A-Za-z0-9._%+-]+@[A-Za-z0-9.-]+\.<tld>{2,}\b`
against a character list, parameterised by the tld character class.
None of the character classes contains `@`, so a match splits uniquely at
the first `@`.  In `re.fullmatch`, the leading `\b` holds iff the first
character is a word character, the trailing `\b` iff the last one is. -/
def emailCore (p : Char → Bool) (cs : List Char) : Bool :=
  match splitAtFirst '@' cs with
  | Option.none => false
  | some (loc, rest) =>
    !loc.isEmpty && loc.all localChar && domainSplit p [] rest
      && (match cs.head? with | some c0 => wordChar c0 | _ => false)
      && (match cs.getLast? with | some cn => wordChar cn | _ => false)

/-- The source email regex of `db/models.py` line 47, as a full match. -/
def emailFullmatch (s : String) : Bool :=
  emailCore tldChar s.toList

/-- Modelled from the spec: the email pattern as written in the spec,
`\b[A-Za-z0-9._%+-]+@[A-Za-z0-9.-]+\.[A-Za-z]{2,}\b` as a full match,
kept separate so it can be compared with the source pattern (whose tld
class is `[A-Z|a-z]`). -/
def specEmailFullmatch (s : String) : Bool :=
  emailCore specTldChar s.toList

/-- `Column.ColumnTypes.has_value`: membership in the recognised type
names. -/
def hasValue (t : String) : Bool :=
  t = "int" || t = "real" || t = "char" || t = "string" || t = "email" || t = "enum"

/-- `Column.COLUMN_DEFAULTS`: the builtin default for each non-enum type.
The dictionary has no entry for `enum`; the lookup is only reached for
recognised non-enum types, so the fallback branch is unreachable. -/
def columnDefault (t : String) : PyVal :=
  if t = "int" then .int 0
  else if t = "real" then .float 0
  else if t = "char" then .str "_"
  else if t = "string" then .str ""
  else if t = "email" then .str "default@default.com"
  else .null

/-- `Column.ColumnTypes.validate(column_type, value)`: raises a
`ValidationError` (modelled as `typeMismatch`) when the value does not
fit the named base type.  For `email` the source calls
`re.fullmatch(email_regex, value)`, which raises `TypeError` when the
value is not a string.  For `enum` or an unrecognised name no branch of
the or-chain fires and the call returns without error. -/
def validate (columnType : String) (v : PyVal) : Except PyErr Unit :=
  if columnType = "int" then
    if intLike v then .ok () else .error (.typeMismatch columnType v)
  else if columnType = "real" then
    if floatLike v then .ok () else .error (.typeMismatch columnType v)
  else if columnType = "char" then
    match strVal v with
    | some s => if s.length = 1 then .ok () else .error (.typeMismatch columnType v)
    | Option.none => .error (.typeMismatch columnType v)
  else if columnType = "string" then
    match strVal v with
    | some _ => .ok ()
    | Option.none => .error (.typeMismatch columnType v)
  else if columnType = "email" then
    match strVal v with
    | some s => if emailFullmatch s then .ok () else .error (.typeMismatch columnType v)
    | Option.none => .error .typeError
  else .ok ()

/-- The member loop `for value in available_values: validate(...)` used by
both `ColumnViewSet.perform_create` and `Column.clean`. -/
def validateList (columnType : String) : List PyVal → Except PyErr Unit
  | [] => .ok ()
  | v :: vs =>
    match validate columnType v with
    | .error e => .error e
    | .ok _ => validateList columnType vs

/-- Stored column descriptor (the `info` JSON document of a Column).
Columns are only created through `ColumnViewSet.perform_create`, which
always writes `type` and `default`, and `column_type`/`available_values`
exactly when `type` is `enum`. -/
structure ColumnInfo where
  type : String
  default : PyVal
  columnType : Option String
  availableValues : Option (List PyVal)
deriving DecidableEq

/-- `Column.validate_value(value)`: non-enum columns delegate to the base
type validator; enum columns require Python membership of the value in
`info["available_values"]` (a `KeyError` if the stored descriptor lacks
the key, which normalised descriptors never do). -/
def validateValue (info : ColumnInfo) (v : PyVal) : Except PyErr Unit :=
  if info.type ≠ "enum" then validate info.type v
  else
    match info.availableValues with
    | Option.none => .error (.validationError "KeyError: available_values")
    | some av =>
      if pyMem v av then .ok ()
      else .error (.notInEnum v av)

/-- A persisted Column row: primary key, name, owning table, stored
descriptor. -/
structure ColumnRec where
  id : Nat
  name : String
  tableId : Nat
  info : ColumnInfo
deriving DecidableEq

/-- A persisted Row: primary key and owning table. -/
structure RowRec where
  id : Nat
  tableId : Nat
deriving DecidableEq

/-- A persisted Value: primary key, owning column and row, and the
content `info["value"]`. -/
structure ValueRec where
  id : Nat
  columnId : Nat
  rowId : Nat
  value : PyVal
deriving DecidableEq

/-- The persisted entity graph reachable by the claims: table ids,
columns, rows, values, plus a fresh primary-key supply.  Databases are
not modelled; no claim mentions them. -/
structure DBState where
  tables : List Nat
  columns : List ColumnRec
  rows : List RowRec
  values : List ValueRec
  nextId : Nat
deriving DecidableEq

/-- `table.columns`: the columns of a table. -/
def tableColumns (st : DBState) (tid : Nat) : List ColumnRec :=
  st.columns.filter (fun c => c.tableId == tid)

/-- Primary-key lookup of a Column, as the serializer's
`PrimaryKeyRelatedField` performs it. -/
def findColumn (st : DBState) (cid : Nat) : Option ColumnRec :=
  st.columns.find? (fun c => c.id == cid)

/-- Basic well-formedness of a persisted state: every stored primary key
and every value's row reference is below the fresh-id supply.  Any state
produced by the storage layer satisfies this. -/
def stateWF (st : DBState) : Bool :=
  st.rows.all (fun r => r.id < st.nextId)
    && st.values.all (fun v => v.id < st.nextId && v.rowId < st.nextId)
    && st.columns.all (fun c => c.id < st.nextId)

/-- One submitted value item of a row create/update payload:
`{"info": {"value": v}, "column": cid}`. -/
structure ValueItem where
  columnId : Nat
  value : PyVal
deriving DecidableEq

/-- Resolution of the submitted column primary keys into Column records,
as DRF's `PrimaryKeyRelatedField` does during `is_valid` (a dangling pk
is rejected before `create`/`update` runs). -/
def resolveItems (st : DBState) : List ValueItem → Option (List (ColumnRec × PyVal))
  | [] => some []
  | it :: rest =>
    match findColumn st it.columnId with
    | Option.none => Option.none
    | some c => (resolveItems st rest).map (fun l => (c, it.value) :: l)

/-- The loop body of `RowSerializer.create`: for each item, validate the
value against its column (`validate_value` is run by the serializer and
again by `Value.full_clean`, with the same outcome), then create the
Value; `Value.full_clean` also enforces the `("column", "row")`
unique-together constraint against the rows already written in the
transaction. -/
def createValuesLoop (st : DBState) (rid : Nat) :
    List (ColumnRec × PyVal) → Except PyErr DBState
  | [] => .ok st
  | (c, v) :: rest =>
    match validateValue c.info v with
    | .error e => .error e
    | .ok _ =>
      if st.values.any (fun w => w.columnId == c.id && w.rowId == rid) then
        .error (.validationError "Value with this Column and Row already exists.")
      else
        createValuesLoop
          { st with
            values := st.values ++ [⟨st.nextId, c.id, rid, v⟩],
            nextId := st.nextId + 1 } rid rest

/-- `RowSerializer.create` inside its `transaction.atomic` block:
fetch the context table, compare the item count with the table's column
count, create the Row, then create the Values. -/
def createRowTx (st : DBState) (tid : Nat) (items : List (ColumnRec × PyVal)) :
    Except PyErr (DBState × Nat) :=
  if tid ∈ st.tables then
    if items.length = (tableColumns st tid).length then
      match
        createValuesLoop
          { st with
            rows := st.rows ++ [⟨st.nextId, tid⟩],
            nextId := st.nextId + 1 } st.nextId items with
      | .error e => .error e
      | .ok st2 => .ok (st2, st.nextId)
    else .error (.validationError "Number of columns and values in row mismatch!")
  else .error (.validationError "Table matching query does not exist.")

/-- The `POST /tables/tid/rows` operation: serializer validation
(`values` has `allow_empty=False`; every submitted column pk must
exist), then `RowSerializer.create` in a transaction. -/
def createRow (st : DBState) (tid : Nat) (items : List ValueItem) :
    Except PyErr (DBState × Nat) :=
  if items.isEmpty then .error (.validationError "This list may not be empty.")
  else
    match resolveItems st items with
    | Option.none => .error (.validationError "Invalid pk - object does not exist.")
    | some resolved => createRowTx st tid resolved

/-- Observable effect of the row-creation endpoint: on any error the
enclosing transaction rolls back, so the state is unchanged. -/
def runCreateRow (st : DBState) (tid : Nat) (items : List ValueItem) :
    DBState × Option Nat :=
  match createRow st tid items with
  | .ok (st', r) => (st', some r)
  | .error _ => (st, Option.none)

/-- The loop body of `RowSerializer.update`: for each item, require an
existing Value linking the row to the submitted column (else the
`UnknownColumnForRow` error), re-validate the new literal, and overwrite
only the `value` field of the matched Value. -/
def updateValuesLoop (st : DBState) (rid : Nat) :
    List (ColumnRec × PyVal) → Except PyErr DBState
  | [] => .ok st
  | (c, v) :: rest =>
    match st.values.find? (fun w => w.rowId == rid && w.columnId == c.id) with
    | Option.none => .error (.validationError "Incorrect columns provided for changing this row!")
    | some w =>
      match validateValue c.info v with
      | .error e => .error e
      | .ok _ =>
        updateValuesLoop
          { st with
            values := st.values.map (fun u => if u.id = w.id then { u with value := v } else u) }
          rid rest

/-- The `PUT /tables/tid/rows/rid` operation: the view resolves the row
inside the queryset filtered by the URL's table (404 otherwise), the
serializer validates the payload, then `RowSerializer.update` runs in a
transaction: count check, table-immutability check, then the value
loop. -/
def updateRow (st : DBState) (tid rid : Nat) (items : List ValueItem) :
    Except PyErr (DBState × Nat) :=
  match st.rows.find? (fun r => r.id == rid && r.tableId == tid) with
  | Option.none => .error (.validationError "Not found.")
  | some row =>
    if items.isEmpty then .error (.validationError "This list may not be empty.")
    else
      match resolveItems st items with
      | Option.none => .error (.validationError "Invalid pk - object does not exist.")
      | some resolved =>
        if tid ∈ st.tables then
          if resolved.length = (tableColumns st tid).length then
            if row.tableId = tid then
              match updateValuesLoop st rid resolved with
              | .error e => .error e
              | .ok st' => .ok (st', rid)
            else .error (.validationError "Table of Row cannot be change during update!")
          else .error (.validationError "Number of columns and values in row mismatch!")
        else .error (.validationError "Table matching query does not exist.")

/-- Observable effect of the row-update endpoint: on any error the
transaction rolls back and the state is unchanged. -/
def runUpdateRow (st : DBState) (tid rid : Nat) (items : List ValueItem) :
    DBState × Option Nat :=
  match updateRow st tid rid items with
  | .ok (st', r) => (st', some r)
  | .error _ => (st, Option.none)

/-- `RowViewSet.get_queryset`: rows of the URL's table, filtered by
`values__info__value=search_string` only when the parameter is truthy —
Python's `if search_string:` skips the filter for the empty string just
as for an absent parameter. -/
def searchRows (st : DBState) (tid : Nat) (searchString : Option String) :
    List RowRec :=
  let qs := st.rows.filter (fun r => r.tableId == tid)
  match searchString with
  | Option.none => qs
  | some s =>
    if s = "" then qs
    else qs.filter (fun r => st.values.any (fun v => v.rowId == r.id && v.value == PyVal.str s))

/-- Message of the `ValidationError` raised by
`ColumnViewSet.perform_create` when the table already holds rows (the
spec's `ColumnsLocked`). -/
def columnsLockedMsg : String :=
  "You can not add columns to the Table, if there are some rows in it!"

/-- `Column.clean`: re-derives the type from the stored descriptor,
requires a recognised type and a non-`None` default, validates the
default for non-enum types, and for enum requires `column_type` and
`available_values`, a recognised non-enum member type, and validity of
every member.  It does not check the enum default against
`available_values` or against `column_type`. -/
def columnClean (info : ColumnInfo) : Except PyErr Unit :=
  if hasValue info.type then
    if info.default = PyVal.null then
      .error (.validationError "You must provide default value!")
    else if info.type ≠ "enum" then validate info.type info.default
    else
      match info.availableValues, info.columnType with
      | some av, some ct =>
        if hasValue ct && !(ct == "enum") then validateList ct av
        else .error (.validationError "Column type is not supported for enum!")
      | _, _ =>
        .error (.validationError "If type is enum you should provide additionally column type and available values")
  else .error (.validationError "Provided type is not supported!")

/-- `Column.save`, which runs `full_clean`: field validation (the name is
a `CharField` with `max_length=250`), `clean`, and the
`("name", "table")` unique-together check; then the insert. -/
def columnSave (st : DBState) (tid : Nat) (name : String) (info : ColumnInfo) :
    Except PyErr (DBState × Nat) :=
  if 250 < name.length then
    .error (.validationError "Ensure this value has at most 250 characters.")
  else
    match columnClean info with
    | .error e => .error e
    | .ok _ =>
      if st.columns.any (fun c => c.name == name && c.tableId == tid) then
        .error (.validationError "Column with this Name and Table already exists.")
      else
        .ok ({ st with
                columns := st.columns ++ [⟨st.nextId, name, tid, info⟩],
                nextId := st.nextId + 1 }, st.nextId)

/-- A submitted column descriptor (the request's `info` document).
`data.get` collapses an absent key and a JSON `null` to Python `None`,
modelled by `Option.none`. -/
structure ColumnDescriptor where
  type : Option String
  default : Option PyVal
  columnType : Option String
  availableValues : Option (List PyVal)
deriving DecidableEq

/-- The `POST /tables/tid/columns` operation
(`ColumnViewSet.perform_create` after serializer validation): reject if
the table already has rows; require a recognised type; for non-enum
types fill an omitted default from `COLUMN_DEFAULTS` and validate it;
for enum require `column_type` and `available_values`, take an omitted
default from `available_values[0]` (an `IndexError` on an empty list),
require a recognised non-enum member type, validate every member; then
save the normalised descriptor. -/
def createColumn (st : DBState) (tid : Nat) (name : String) (data : ColumnDescriptor) :
    Except PyErr (DBState × Nat) :=
  if 250 < name.length then
    .error (.validationError "Ensure this field has no more than 250 characters.")
  else if tid ∈ st.tables then
    if st.rows.any (fun r => r.tableId == tid) then
      .error (.validationError columnsLockedMsg)
    else
      let providedType := data.type.getD "no_type_provided_error"
      if hasValue providedType then
        if providedType = "enum" then
          match data.availableValues, data.columnType with
          | some av, some ct =>
            match
              (match data.default with
               | some d => Except.ok d
               | Option.none =>
                 match av with
                 | [] => Except.error PyErr.indexError
                 | x :: _ => Except.ok x : Except PyErr PyVal) with
            | .error e => .error e
            | .ok d =>
              if hasValue ct && !(ct == "enum") then
                match validateList ct av with
                | .error e => .error e
                | .ok _ => columnSave st tid name ⟨"enum", d, some ct, some av⟩
              else .error (.validationError "Column type is not supported for enum!")
          | _, _ =>
            .error (.validationError "If type is enum you should provide additionally column type and available values")
        else
          let d := data.default.getD (columnDefault providedType)
          match validate providedType d with
          | .error e => .error e
          | .ok _ => columnSave st tid name ⟨providedType, d, Option.none, Option.none⟩
      else .error (.validationError "Provided type is not supported!")
  else .error (.validationError "Table matching query does not exist.")

/-- Observable effect of the column-creation endpoint: on any error
nothing is persisted. -/
def runCreateColumn (st : DBState) (tid : Nat) (name : String) (data : ColumnDescriptor) :
    DBState × Option Nat :=
  match createColumn st tid name data with
  | .ok (st', c) => (st', some c)
  | .error _ => (st, Option.none)

/-- Descriptor of a stored `int` column with default 0. -/
def intInfo : ColumnInfo := ⟨"int", .int 0, Option.none, Option.none⟩

/-- Fixture: one table (id 1) with a single `int` column (id 1), no rows. -/
def stIntCol : DBState :=
  ⟨[1], [⟨1, "c", 1, intInfo⟩], [], [], 2⟩

/-- Fixture: two tables; column 1 belongs to table 1, column 2 to table 2. -/
def stForeign : DBState :=
  ⟨[1, 2], [⟨1, "a", 1, intInfo⟩, ⟨2, "b", 2, intInfo⟩], [], [], 3⟩

/-- Fixture: table 1 with a `string` column, one row (id 2) and one value
(id 3) storing the string `x`. -/
def stSearch : DBState :=
  ⟨[1], [⟨1, "c", 1, ⟨"string", .str "", Option.none, Option.none⟩⟩],
   [⟨2, 1⟩], [⟨3, 1, 2, .str "x"⟩], 4⟩

/-- Fixture: table 1 with two `int` columns (ids 1 and 2), one row
(id 3) carrying one value per column (ids 4 and 5, both 0). -/
def stTwoCols : DBState :=
  ⟨[1], [⟨1, "a", 1, intInfo⟩, ⟨2, "b", 1, intInfo⟩],
   [⟨3, 1⟩], [⟨4, 1, 3, .int 0⟩, ⟨5, 2, 3, .int 0⟩], 6⟩

/-- Fixture: table 1 with no columns and no rows. -/
def stEmpty : DBState := ⟨[1], [], [], [], 2⟩

/-- Fixture: table 1 with no columns but one existing row (id 2). -/
def stLocked : DBState := ⟨[1], [], [⟨2, 1⟩], [], 3⟩

/-- Submitted enum descriptor whose explicit default (the integer 5) is
neither a member of `available_values` nor a string. -/
def descEnumBadDefault : ColumnDescriptor :=
  ⟨some "enum", some (.int 5), some "string", some [.str "user"]⟩

/-- Submitted enum descriptor with an empty `available_values` and no
default. -/
def descEnumEmpty : ColumnDescriptor :=
  ⟨some "enum", Option.none, some "string", some []⟩

/-- Submitted enum descriptor with member type `string`, members
`user`/`admin`, and no default. -/
def descEnumGood : ColumnDescriptor :=
  ⟨some "enum", Option.none, some "string", some [.str "user", .str "admin"]⟩

/-- Submitted plain `int` descriptor with no default. -/
def descInt : ColumnDescriptor :=
  ⟨some "int", Option.none, Option.none, Option.none⟩

/-- State reached from `stIntCol` by creating a row with value 7 in
column 1: row id 2, value id 3. -/
def stIntColAfter : DBState :=
  ⟨[1], [⟨1, "c", 1, intInfo⟩], [⟨2, 1⟩], [⟨3, 1, 2, .int 7⟩], 4⟩

/-- State reached from `stTwoCols` by the duplicate-column update: the
value of column 1 holds the last submitted literal, column 2 is
untouched. -/
def stTwoColsAfter : DBState :=
  ⟨[1], [⟨1, "a", 1, intInfo⟩, ⟨2, "b", 1, intInfo⟩],
   [⟨3, 1⟩], [⟨4, 1, 3, .int 8⟩, ⟨5, 2, 3, .int 0⟩], 6⟩

/-- State reached from `stEmpty` by creating an `int` column named `c`
with the builtin default. -/
def stEmptyInt : DBState :=
  ⟨[1], [⟨2, "c", 1, intInfo⟩], [], [], 3⟩


/-- C1 counterexample: a `create_row` submission against table 1 whose
single value item references column 2 — a column of a different table —
is accepted: the row is created (id 3) and its stored value references
column 2, while table 1's column set is exactly the column 1.  The
claimed identity check between the submission's columns and the table's
columns does not exist; only the count is compared. -/
theorem createRow_foreign_column_accepted :
    (runCreateRow stForeign 1 [⟨2, .int 7⟩]).2 = some 3
      ∧ ((runCreateRow stForeign 1 [⟨2, .int 7⟩]).1.values.filter
          (fun v => v.rowId == 3)).map (fun v => v.columnId) = [2]
      ∧ (tableColumns stForeign 1).map (fun c => c.id) = [1] := by
  refine ⟨rfl, rfl, rfl⟩

/-- C3 counterexample: searching table 1 with the empty literal returns
the row with id 2 even though no stored value equals the empty string —
`if search_string:` treats the empty string as absent and skips the
filter. -/
theorem search_empty_literal_returns_all :
    searchRows stSearch 1 (some "") = [⟨2, 1⟩]
      ∧ stSearch.values.any (fun v => v.rowId == 2 && v.value == PyVal.str "") = false := by
  refine ⟨rfl, rfl⟩

/-- C4 counterexample: the candidate `a@b.a|a` is accepted by the source
validator although its top-level-domain part contains `|`, a character
outside `A-Za-z`; the spec's written pattern rejects it.  The source
class `[A-Z|a-z]` contains a literal vertical bar. -/
theorem email_regex_accepts_bar_in_tld :
    validate "email" (.str "a@b.a|a") = .ok ()
      ∧ specEmailFullmatch "a@b.a|a" = false := by
  refine ⟨rfl, rfl⟩

/-- C5: evaluating the validator at the failing input — a non-string
candidate against the `email` base type — terminates with a Python
`TypeError` raised by `re.fullmatch` (a distinct `PyErr` constructor
from `typeMismatch`), not with the `TypeMismatch` validation error the
contract promises for every rejection. -/
theorem validate_email_nonstring_type_error :
    validate "email" (.int 5) = .error .typeError := rfl

/-- C6 counterexample: updating row 3 of table 1 (columns 1 and 2) with
a payload that repeats column 1 twice and omits column 2 is accepted:
the count matches, each item's column has an existing Value, so the
update succeeds — the value of column 1 is written twice (the last
submission wins) and column 2 is untouched.  The claimed exact-set
equality between the payload's columns and the row's columns is not
enforced. -/
theorem updateRow_duplicate_column_accepted :
    (runUpdateRow stTwoCols 1 3 [⟨1, .int 7⟩, ⟨1, .int 8⟩]).2 = some 3
      ∧ (runUpdateRow stTwoCols 1 3 [⟨1, .int 7⟩, ⟨1, .int 8⟩]).1.values
          = [⟨4, 1, 3, .int 8⟩, ⟨5, 2, 3, .int 0⟩] := by
  refine ⟨rfl, rfl⟩

/-- C8 counterexample: an enum descriptor with explicit default 5,
member type `string` and members `["user"]` is stored successfully, yet
the stored default is not a member of `available_values` (and does not
even satisfy the member type): the explicit enum default is persisted
without any conformance check. -/
theorem enum_explicit_default_unchecked :
    (runCreateColumn stEmpty 1 "c" descEnumBadDefault).2 = some 2
      ∧ (runCreateColumn stEmpty 1 "c" descEnumBadDefault).1.columns.map
          (fun c => c.info)
          = [⟨"enum", .int 5, some "string", some [.str "user"]⟩]
      ∧ pyMem (.int 5) [.str "user"] = false
      ∧ validate "string" (.int 5) = .error (.typeMismatch "string" (.int 5)) := by
  refine ⟨rfl, rfl, rfl, rfl⟩

/-- C9 counterexample: an enum descriptor with recognised non-enum
member type `string`, an empty `available_values` (so the member
condition holds vacuously) and no explicit default does not create a
column as the claim states: the default lookup `available_values[0]`
raises an `IndexError` first. -/
theorem enum_empty_available_values_index_error :
    createColumn stEmpty 1 "c" descEnumEmpty = .error .indexError
      ∧ hasValue "string" = true
      ∧ validateList "string" [] = .ok () := by
  refine ⟨rfl, rfl, rfl⟩

/-- C10: the boolean literals are accepted by validation against `int`
(Python booleans are instances of `int`) and rejected against `real`
(they are not instances of `float`); consequently creating a row that
stores `true` in an `int` column succeeds, persisting the boolean. -/
theorem bool_accepted_as_int_rejected_as_real :
    (∀ b, validate "int" (.bool b) = .ok ())
      ∧ (∀ b, validate "real" (.bool b) = .error (.typeMismatch "real" (.bool b)))
      ∧ (runCreateRow stIntCol 1 [⟨1, .bool true⟩]).2 = some 2
      ∧ (runCreateRow stIntCol 1 [⟨1, .bool true⟩]).1.values
          = [⟨3, 1, 2, .bool true⟩] := by
  refine ⟨fun b => by cases b <;> rfl, fun b => by cases b <;> rfl, rfl, rfl⟩

theorem findColumn_id {st : DBState} {cid : Nat} {c : ColumnRec}
    (h : findColumn st cid = some c) : c.id = cid := by
  unfold findColumn at h
  have := List.find?_some h
  simpa using this

theorem findColumn_mem {st : DBState} {cid : Nat} {c : ColumnRec}
    (h : findColumn st cid = some c) : c ∈ st.columns := by
  unfold findColumn at h
  exact List.mem_of_find?_eq_some h

theorem resolveItems_map {st : DBState} :
    ∀ {items : List ValueItem} {res : List (ColumnRec × PyVal)},
      resolveItems st items = some res →
      res.map (fun p => p.1.id) = items.map (fun it => it.columnId) := by
  intro items
  induction items with
  | nil => intro res h; simp [resolveItems] at h; simp [← h]
  | cons it rest ih =>
    intro res h
    unfold resolveItems at h
    cases hc : findColumn st it.columnId with
    | none => rw [hc] at h; exact Option.noConfusion h
    | some c =>
      rw [hc] at h
      cases hr : resolveItems st rest with
      | none => rw [hr] at h; exact Option.noConfusion h
      | some l =>
        rw [hr] at h
        simp only [Option.map_some'] at h
        cases h
        simp [ih hr, findColumn_id hc]

theorem resolveItems_length {st : DBState} {items : List ValueItem}
    {res : List (ColumnRec × PyVal)} (h : resolveItems st items = some res) :
    res.length = items.length := by
  have := resolveItems_map h
  have h2 := congrArg List.length this
  simpa using h2

theorem resolveItems_forall {st : DBState} :
    ∀ {items : List ValueItem} {res : List (ColumnRec × PyVal)},
      resolveItems st items = some res →
      ∀ it ∈ items, ∃ c, findColumn st it.columnId = some c ∧ (c, it.value) ∈ res := by
  intro items
  induction items with
  | nil => intro res _ it hit; exact absurd hit (List.not_mem_nil it)
  | cons hd rest ih =>
    intro res h it hit
    unfold resolveItems at h
    cases hc : findColumn st hd.columnId with
    | none => rw [hc] at h; exact Option.noConfusion h
    | some c =>
      rw [hc] at h
      cases hr : resolveItems st rest with
      | none => rw [hr] at h; exact Option.noConfusion h
      | some l =>
        rw [hr] at h
        simp only [Option.map_some'] at h
        cases h
        rcases List.mem_cons.mp hit with rfl | hmem
        · exact ⟨c, hc, List.mem_cons_self _ _⟩
        · obtain ⟨c', hc', hin⟩ := ih hr it hmem
          exact ⟨c', hc', List.mem_cons_of_mem _ hin⟩

theorem validateList_ok_iff {ct : String} :
    ∀ {l : List PyVal}, validateList ct l = .ok () ↔ ∀ v ∈ l, validate ct v = .ok () := by
  intro l
  induction l with
  | nil => simp [validateList]
  | cons x xs ih =>
    constructor
    · intro h v hv
      unfold validateList at h
      cases hx : validate ct x with
      | error e => rw [hx] at h; exact Except.noConfusion h
      | ok u =>
        rw [hx] at h
        rcases List.mem_cons.mp hv with rfl | hmem
        · cases u; exact hx
        · exact ih.mp h v hmem
    · intro h
      unfold validateList
      have hx := h x (List.mem_cons_self _ _)
      rw [hx]
      exact ih.mpr (fun v hv => h v (List.mem_cons_of_mem _ hv))

theorem hasValue_cases {t : String} (h : hasValue t = true) :
    t = "int" ∨ t = "real" ∨ t = "char" ∨ t = "string" ∨ t = "email" ∨ t = "enum" := by
  unfold hasValue at h
  simp only [Bool.or_eq_true, decide_eq_true_eq] at h
  tauto

theorem validate_null_ne_ok {ct : String} (h1 : hasValue ct = true) (h2 : ct ≠ "enum") :
    validate ct PyVal.null ≠ .ok () := by
  rcases hasValue_cases h1 with rfl | rfl | rfl | rfl | rfl | rfl
  · intro h; exact Except.noConfusion h
  · intro h; exact Except.noConfusion h
  · intro h; exact Except.noConfusion h
  · intro h; exact Except.noConfusion h
  · intro h; exact Except.noConfusion h
  · exact absurd rfl h2

theorem createValuesLoop_ok_valid {rid : Nat} :
    ∀ {l : List (ColumnRec × PyVal)} {st st' : DBState},
      createValuesLoop st rid l = .ok st' →
      ∀ p ∈ l, validateValue p.1.info p.2 = .ok () := by
  intro l
  induction l with
  | nil => intro st st' _ p hp; exact absurd hp (List.not_mem_nil p)
  | cons hd tl ih =>
    intro st st' h p hp
    obtain ⟨c, v⟩ := hd
    unfold createValuesLoop at h
    cases hval : validateValue c.info v with
    | error e => rw [hval] at h; exact Except.noConfusion h
    | ok u =>
      rw [hval] at h
      by_cases hdup : (st.values.any fun w => w.columnId == c.id && w.rowId == rid) = true
      · rw [if_pos hdup] at h; exact Except.noConfusion h
      · rw [if_neg hdup] at h
        rcases List.mem_cons.mp hp with rfl | hmem
        · cases u; exact hval
        · exact ih h p hmem

theorem createValuesLoop_ok_values {rid : Nat} :
    ∀ {l : List (ColumnRec × PyVal)} {st st' : DBState},
      createValuesLoop st rid l = .ok st' →
      (st'.values.filter (fun v => v.rowId == rid)).map (fun v => v.columnId)
          = (st.values.filter (fun v => v.rowId == rid)).map (fun v => v.columnId)
            ++ l.map (fun p => p.1.id)
        ∧ (((st.values.filter (fun v => v.rowId == rid)).map (fun v => v.columnId)).Nodup →
            ((st.values.filter (fun v => v.rowId == rid)).map (fun v => v.columnId)
              ++ l.map (fun p => p.1.id)).Nodup) := by
  intro l
  induction l with
  | nil =>
    intro st st' h
    unfold createValuesLoop at h
    injection h with h2
    subst h2
    simp
  | cons hd tl ih =>
    intro st st' h
    obtain ⟨c, v⟩ := hd
    unfold createValuesLoop at h
    cases hval : validateValue c.info v with
    | error e => rw [hval] at h; exact Except.noConfusion h
    | ok u =>
      rw [hval] at h
      by_cases hdup : (st.values.any fun w => w.columnId == c.id && w.rowId == rid) = true
      · rw [if_pos hdup] at h; exact Except.noConfusion h
      · rw [if_neg hdup] at h
        obtain ⟨h1, h2⟩ := ih h
        have hfil : (({ st with
              values := st.values ++ [⟨st.nextId, c.id, rid, v⟩],
              nextId := st.nextId + 1 } : DBState).values.filter (fun v => v.rowId == rid))
            = (st.values.filter (fun v => v.rowId == rid)) ++ [⟨st.nextId, c.id, rid, v⟩] := by
          simp [List.filter_append]
        have hnotin : c.id ∉ (st.values.filter (fun v => v.rowId == rid)).map
            (fun v => v.columnId) := by
          intro hin
          apply hdup
          simp only [List.mem_map, List.mem_filter] at hin
          obtain ⟨w, ⟨hw, hwrow⟩, hwc⟩ := hin
          simp only [List.any_eq_true, Bool.and_eq_true, beq_iff_eq]
          refine ⟨w, hw, hwc, ?_⟩
          simpa using hwrow
        rw [hfil] at h1 h2
        constructor
        · rw [h1]
          simp [List.map_append]
        · intro hnd
          have hpre : (((st.values.filter (fun v => v.rowId == rid)).map
              (fun v => v.columnId)) ++ [c.id]).Nodup := by
            simp [List.nodup_append, hnd, hnotin]
          have h3 := h2 (by simpa [List.map_append] using hpre)
          simp only [List.map_append, List.map_cons] at h3 ⊢
          simpa [List.append_assoc] using h3

theorem updateValuesLoop_keys {rid : Nat} :
    ∀ {l : List (ColumnRec × PyVal)} {st st' : DBState},
      updateValuesLoop st rid l = .ok st' →
      st'.values.map (fun v => (v.id, v.columnId, v.rowId))
        = st.values.map (fun v => (v.id, v.columnId, v.rowId)) := by
  intro l
  induction l with
  | nil =>
    intro st st' h
    unfold updateValuesLoop at h
    injection h with h2
    subst h2
    rfl
  | cons hd tl ih =>
    intro st st' h
    obtain ⟨c, v⟩ := hd
    unfold updateValuesLoop at h
    cases hfind : st.values.find? (fun w => w.rowId == rid && w.columnId == c.id) with
    | none => rw [hfind] at h; exact Except.noConfusion h
    | some w =>
      rw [hfind] at h
      cases hval : validateValue c.info v with
      | error e => rw [hval] at h; exact Except.noConfusion h
      | ok u =>
        rw [hval] at h
        have hstep := ih h
        rw [hstep]
        simp only [List.map_map]
        apply List.map_congr_left
        intro u hu
        by_cases hid : u.id = w.id <;> simp [hid]

theorem updateValuesLoop_ok_linked {rid : Nat} :
    ∀ {l : List (ColumnRec × PyVal)} {st st' : DBState},
      updateValuesLoop st rid l = .ok st' →
      ∀ p ∈ l, ∃ w ∈ st.values, w.rowId = rid ∧ w.columnId = p.1.id := by
  intro l
  induction l with
  | nil => intro st st' _ p hp; exact absurd hp (List.not_mem_nil p)
  | cons hd tl ih =>
    intro st st' h p hp
    obtain ⟨c, v⟩ := hd
    unfold updateValuesLoop at h
    cases hfind : st.values.find? (fun w => w.rowId == rid && w.columnId == c.id) with
    | none => rw [hfind] at h; exact Except.noConfusion h
    | some w =>
      rw [hfind] at h
      cases hval : validateValue c.info v with
      | error e => rw [hval] at h; exact Except.noConfusion h
      | ok u =>
        rw [hval] at h
        have hwmem := List.mem_of_find?_eq_some hfind
        have hwp := List.find?_some hfind
        simp only [Bool.and_eq_true, beq_iff_eq] at hwp
        rcases List.mem_cons.mp hp with rfl | hmem
        · exact ⟨w, hwmem, hwp.1, hwp.2⟩
        · obtain ⟨w', hw'mem, hw'row, hw'col⟩ := ih h p hmem
          simp only [List.mem_map] at hw'mem
          obtain ⟨u2, hu2, hu2eq⟩ := hw'mem
          refine ⟨u2, hu2, ?_, ?_⟩
          · by_cases hid : u2.id = w.id
            · have : w'.rowId = u2.rowId := by rw [← hu2eq]; simp [hid]
              rw [← this]; exact hw'row
            · have : w' = u2 := by rw [← hu2eq]; simp [hid]
              rw [← this]; exact hw'row
          · by_cases hid : u2.id = w.id
            · have : w'.columnId = u2.columnId := by rw [← hu2eq]; simp [hid]
              rw [← this]; exact hw'col
            · have : w' = u2 := by rw [← hu2eq]; simp [hid]
              rw [← this]; exact hw'col

theorem updateValuesLoop_ok_valid {rid : Nat} :
    ∀ {l : List (ColumnRec × PyVal)} {st st' : DBState},
      updateValuesLoop st rid l = .ok st' →
      ∀ p ∈ l, validateValue p.1.info p.2 = .ok () := by
  intro l
  induction l with
  | nil => intro st st' _ p hp; exact absurd hp (List.not_mem_nil p)
  | cons hd tl ih =>
    intro st st' h p hp
    obtain ⟨c, v⟩ := hd
    unfold updateValuesLoop at h
    cases hfind : st.values.find? (fun w => w.rowId == rid && w.columnId == c.id) with
    | none => rw [hfind] at h; exact Except.noConfusion h
    | some w =>
      rw [hfind] at h
      cases hval : validateValue c.info v with
      | error e => rw [hval] at h; exact Except.noConfusion h
      | ok u =>
        rw [hval] at h
        rcases List.mem_cons.mp hp with rfl | hmem
        · cases u; exact hval
        · exact ih h p hmem

theorem createRow_ok_parts {st st' : DBState} {tid rid : Nat} {items : List ValueItem}
    (h : createRow st tid items = .ok (st', rid)) :
    ∃ res, resolveItems st items = some res
      ∧ rid = st.nextId ∧ tid ∈ st.tables
      ∧ res.length = (tableColumns st tid).length
      ∧ createValuesLoop
          { st with rows := st.rows ++ [⟨st.nextId, tid⟩], nextId := st.nextId + 1 }
          st.nextId res = .ok st' := by
  unfold createRow at h
  by_cases hemp : items.isEmpty = true
  · rw [if_pos hemp] at h; exact Except.noConfusion h
  · rw [if_neg hemp] at h
    cases hres : resolveItems st items with
    | none => rw [hres] at h; exact Except.noConfusion h
    | some res =>
      rw [hres] at h
      unfold createRowTx at h
      dsimp only at h
      by_cases htid : tid ∈ st.tables
      · rw [if_pos htid] at h
        by_cases hlen : res.length = (tableColumns st tid).length
        · rw [if_pos hlen] at h
          cases hloop : createValuesLoop
              { st with rows := st.rows ++ [⟨st.nextId, tid⟩], nextId := st.nextId + 1 }
              st.nextId res with
          | error e => rw [hloop] at h; exact Except.noConfusion h
          | ok st2 =>
            rw [hloop] at h
            injection h with h2
            rw [Prod.mk.injEq] at h2
            obtain ⟨h3, h4⟩ := h2
            subst h3
            subst h4
            exact ⟨res, rfl, rfl, htid, hlen, hloop⟩
        · rw [if_neg hlen] at h; exact Except.noConfusion h
      · rw [if_neg htid] at h; exact Except.noConfusion h

theorem updateRow_ok_parts {st st' : DBState} {tid rid r' : Nat} {items : List ValueItem}
    (h : updateRow st tid rid items = .ok (st', r')) :
    ∃ row res, st.rows.find? (fun r => r.id == rid && r.tableId == tid) = some row
      ∧ resolveItems st items = some res
      ∧ tid ∈ st.tables
      ∧ res.length = (tableColumns st tid).length
      ∧ updateValuesLoop st rid res = .ok st' := by
  unfold updateRow at h
  cases hrow : st.rows.find? (fun r => r.id == rid && r.tableId == tid) with
  | none => rw [hrow] at h; exact Except.noConfusion h
  | some row =>
    rw [hrow] at h
    dsimp only at h
    by_cases hemp : items.isEmpty = true
    · rw [if_pos hemp] at h; exact Except.noConfusion h
    · rw [if_neg hemp] at h
      cases hres : resolveItems st items with
      | none => rw [hres] at h; exact Except.noConfusion h
      | some res =>
        rw [hres] at h
        dsimp only at h
        by_cases htid : tid ∈ st.tables
        · rw [if_pos htid] at h
          by_cases hlen : res.length = (tableColumns st tid).length
          · rw [if_pos hlen] at h
            by_cases htab : row.tableId = tid
            · rw [if_pos htab] at h
              cases hloop : updateValuesLoop st rid res with
              | error e => rw [hloop] at h; exact Except.noConfusion h
              | ok st2 =>
                rw [hloop] at h
                injection h with h2
                rw [Prod.mk.injEq] at h2
                obtain ⟨h3, _⟩ := h2
                subst h3
                exact ⟨row, res, rfl, rfl, htid, hlen, hloop⟩
            · rw [if_neg htab] at h; exact Except.noConfusion h
          · rw [if_neg hlen] at h; exact Except.noConfusion h
        · rw [if_neg htid] at h; exact Except.noConfusion h

theorem createRow_ok_sound {st st' : DBState} {tid rid : Nat} {items : List ValueItem}
    (h : createRow st tid items = .ok (st', rid)) :
    items.length = (tableColumns st tid).length
      ∧ ∀ it ∈ items, ∃ c, findColumn st it.columnId = some c
          ∧ validateValue c.info it.value = .ok () := by
  obtain ⟨res, hres, _, _, hlen, hloop⟩ := createRow_ok_parts h
  constructor
  · rw [← resolveItems_length hres]; exact hlen
  · intro it hit
    obtain ⟨c, hc, hin⟩ := resolveItems_forall hres it hit
    exact ⟨c, hc, createValuesLoop_ok_valid hloop (c, it.value) hin⟩

theorem updateRow_ok_sound {st st' : DBState} {tid rid r' : Nat} {items : List ValueItem}
    (h : updateRow st tid rid items = .ok (st', r')) :
    items.length = (tableColumns st tid).length
      ∧ (∀ it ∈ items, ∃ c, findColumn st it.columnId = some c
          ∧ validateValue c.info it.value = .ok ())
      ∧ (∀ it ∈ items, ∃ w ∈ st.values, w.rowId = rid ∧ w.columnId = it.columnId) := by
  obtain ⟨row, res, hrow, hres, htid, hlen, hloop⟩ := updateRow_ok_parts h
  refine ⟨?_, ?_, ?_⟩
  · rw [← resolveItems_length hres]; exact hlen
  · intro it hit
    obtain ⟨c, hc, hin⟩ := resolveItems_forall hres it hit
    exact ⟨c, hc, updateValuesLoop_ok_valid hloop (c, it.value) hin⟩
  · intro it hit
    obtain ⟨c, hc, hin⟩ := resolveItems_forall hres it hit
    obtain ⟨w, hw, hwr, hwc⟩ := updateValuesLoop_ok_linked hloop (c, it.value) hin
    exact ⟨w, hw, hwr, by rw [hwc, findColumn_id hc]⟩

/-- C1 amended: what row creation actually guarantees about the created
row's columns.  On success, the new row's stored values reference
exactly the submitted columns, in order and without duplicates (the
`("column", "row")` unique-together constraint rejects a repeated
column), and the submission's length equals the table's column count —
but nothing forces the submitted columns to belong to the target table
(see `createRow_foreign_column_accepted`). -/
theorem createRow_value_columns_characterization (st st' : DBState) (tid rid : Nat)
    (items : List ValueItem) (hwf : stateWF st = true)
    (h : createRow st tid items = .ok (st', rid)) :
    (st'.values.filter (fun v => v.rowId == rid)).map (fun v => v.columnId)
        = items.map (fun it => it.columnId)
      ∧ (items.map (fun it => it.columnId)).Nodup
      ∧ items.length = (tableColumns st tid).length := by
  obtain ⟨res, hres, hrid, htid, hlen, hloop⟩ := createRow_ok_parts h
  subst hrid
  have hmap := resolveItems_map hres
  obtain ⟨h1, h2⟩ := createValuesLoop_ok_values hloop
  have hpre : (({ st with
        rows := st.rows ++ [⟨st.nextId, tid⟩],
        nextId := st.nextId + 1 } : DBState).values.filter
        (fun v => v.rowId == st.nextId)) = [] := by
    unfold stateWF at hwf
    simp only [Bool.and_eq_true, List.all_eq_true, decide_eq_true_eq] at hwf
    obtain ⟨⟨-, hv⟩, -⟩ := hwf
    apply List.filter_eq_nil_iff.mpr
    intro v hv2
    have hb := hv v hv2
    simp only [beq_iff_eq]
    exact Nat.ne_of_lt hb.2
  rw [hpre] at h1 h2
  simp only [List.map_nil, List.nil_append] at h1 h2
  refine ⟨?_, ?_, ?_⟩
  · rw [h1, hmap]
  · have h3 := h2 (by simp)
    rw [hmap] at h3
    exact h3
  · rw [← resolveItems_length hres]; exact hlen

/-- Witness for `createRow_value_columns_characterization`: creating a
row with value 7 in the single `int` column of `stIntCol` succeeds and
the characterisation holds at that input. -/
theorem createRow_value_columns_witness :
    (stIntColAfter.values.filter (fun v => v.rowId == 2)).map (fun v => v.columnId)
        = [(⟨1, PyVal.int 7⟩ : ValueItem)].map (fun it => it.columnId)
      ∧ ([(⟨1, PyVal.int 7⟩ : ValueItem)].map (fun it => it.columnId)).Nodup
      ∧ [(⟨1, PyVal.int 7⟩ : ValueItem)].length = (tableColumns stIntCol 1).length :=
  createRow_value_columns_characterization stIntCol stIntColAfter 1 2
    [⟨1, PyVal.int 7⟩] (by decide) (by decide)

/-- C2: row creation and row update are all-or-nothing.  Whenever the
submission is invalid — the item count differs from the table's column
count, or some item references a column primary key that does not
exist, or some item's value fails validation against its column (wrong
type, not in the enum) — both endpoints return an error and the state
is exactly the original one: no new Row, no new Value, no modified
Value. -/
theorem row_write_all_or_nothing (st : DBState) (tid rid : Nat) (items : List ValueItem)
    (h : items.length ≠ (tableColumns st tid).length
      ∨ ∃ it ∈ items, findColumn st it.columnId = Option.none
          ∨ ∃ c, findColumn st it.columnId = some c ∧ validateValue c.info it.value ≠ .ok ()) :
    runCreateRow st tid items = (st, Option.none)
      ∧ runUpdateRow st tid rid items = (st, Option.none) := by
  constructor
  · unfold runCreateRow
    cases hc : createRow st tid items with
    | error e => rfl
    | ok p =>
      exfalso
      obtain ⟨st2, r2⟩ := p
      obtain ⟨hlen, hval⟩ := createRow_ok_sound hc
      rcases h with hbad | ⟨it, hit, hbad⟩
      · exact hbad hlen
      · obtain ⟨c, hcol, hv⟩ := hval it hit
        rcases hbad with hnone | ⟨c', hc', hnv⟩
        · rw [hcol] at hnone; exact Option.noConfusion hnone
        · rw [hcol] at hc'
          injection hc' with hceq
          subst hceq
          exact hnv hv
  · unfold runUpdateRow
    cases hc : updateRow st tid rid items with
    | error e => rfl
    | ok p =>
      exfalso
      obtain ⟨st2, r2⟩ := p
      obtain ⟨hlen, hval, -⟩ := updateRow_ok_sound hc
      rcases h with hbad | ⟨it, hit, hbad⟩
      · exact hbad hlen
      · obtain ⟨c, hcol, hv⟩ := hval it hit
        rcases hbad with hnone | ⟨c', hc', hnv⟩
        · rw [hcol] at hnone; exact Option.noConfusion hnone
        · rw [hcol] at hc'
          injection hc' with hceq
          subst hceq
          exact hnv hv

/-- Witness for `row_write_all_or_nothing`: submitting the string `x`
for the `int` column of `stIntCol` fails validation, and both endpoints
leave the state untouched. -/
theorem row_write_all_or_nothing_witness :
    runCreateRow stIntCol 1 [⟨1, PyVal.str "x"⟩] = (stIntCol, Option.none)
      ∧ runUpdateRow stIntCol 1 5 [⟨1, PyVal.str "x"⟩] = (stIntCol, Option.none) :=
  row_write_all_or_nothing stIntCol 1 5 [⟨1, PyVal.str "x"⟩] (by decide)

/-- C6 amended: a successful row update implies that every submitted
item's column already had a Value linking it to this row — an item
whose column is not linked fails with the `UnknownColumnForRow` error.
The payload's column multiset is however not required to equal the
row's column set: a linked column may appear twice while another is
omitted (see `updateRow_duplicate_column_accepted`). -/
theorem updateRow_only_linked_columns (st st' : DBState) (tid rid r' : Nat)
    (items : List ValueItem) (h : updateRow st tid rid items = .ok (st', r')) :
    ∀ it ∈ items, ∃ w ∈ st.values, w.rowId = rid ∧ w.columnId = it.columnId :=
  (updateRow_ok_sound h).2.2

/-- Witness for `updateRow_only_linked_columns` at the concrete
duplicate-column update of `stTwoCols`. -/
theorem updateRow_only_linked_columns_witness :
    ∃ w ∈ stTwoCols.values, w.rowId = 3
      ∧ w.columnId = (⟨1, PyVal.int 8⟩ : ValueItem).columnId :=
  updateRow_only_linked_columns stTwoCols stTwoColsAfter 1 3 3
    [⟨1, PyVal.int 7⟩, ⟨1, PyVal.int 8⟩] (by decide) ⟨1, PyVal.int 8⟩ (by decide)

/-- C7: when the target table has at least one row, column creation
fails with the `ColumnsLocked` error for every descriptor, valid or
invalid — the row check precedes every inspection of the descriptor —
and nothing is persisted. -/
theorem createColumn_locked_when_rows_exist (st : DBState) (tid : Nat) (name : String)
    (data : ColumnDescriptor) (h1 : tid ∈ st.tables)
    (h2 : st.rows.any (fun r => r.tableId == tid) = true)
    (h3 : name.length ≤ 250) :
    createColumn st tid name data = .error (.validationError columnsLockedMsg)
      ∧ runCreateColumn st tid name data = (st, Option.none) := by
  have hname : ¬250 < name.length := Nat.not_lt.mpr h3
  have hmain : createColumn st tid name data = .error (.validationError columnsLockedMsg) := by
    unfold createColumn
    rw [if_neg hname, if_pos h1, if_pos h2]
  refine ⟨hmain, ?_⟩
  unfold runCreateColumn
  rw [hmain]

/-- Witness for `createColumn_locked_when_rows_exist`: creating any
column on `stLocked` (whose table 1 has a row) is rejected. -/
theorem createColumn_locked_witness :
    createColumn stLocked 1 "c" descInt = .error (.validationError columnsLockedMsg)
      ∧ runCreateColumn stLocked 1 "c" descInt = (stLocked, Option.none) :=
  createColumn_locked_when_rows_exist stLocked 1 "c" descInt (by decide) (by decide) (by decide)

/-- C3 amended: membership characterisation of the row search.  For a
present, non-empty literal the result is exactly the rows of the table
with at least one value equal (as a JSON string) to the literal; for
the empty literal the filter is skipped — Python truthiness — and every
row of the table is returned, as for an absent parameter. -/
theorem searchRows_characterization (st : DBState) (tid : Nat) (s : String) (r : RowRec) :
    (r ∈ searchRows st tid (some s)
        ↔ r ∈ st.rows ∧ r.tableId = tid
            ∧ (s = "" ∨ ∃ v ∈ st.values, v.rowId = r.id ∧ v.value = PyVal.str s))
      ∧ searchRows st tid Option.none = st.rows.filter (fun r => r.tableId == tid) := by
  refine ⟨?_, rfl⟩
  have hqs : searchRows st tid (some s)
      = if s = "" then st.rows.filter (fun r => r.tableId == tid)
        else (st.rows.filter (fun r => r.tableId == tid)).filter
          (fun r => st.values.any (fun v => v.rowId == r.id && v.value == PyVal.str s)) := rfl
  rw [hqs]
  by_cases hs : s = ""
  · rw [if_pos hs]
    simp only [List.mem_filter, beq_iff_eq]
    constructor
    · rintro ⟨h1, h2⟩
      exact ⟨h1, h2, Or.inl hs⟩
    · rintro ⟨h1, h2, -⟩
      exact ⟨h1, h2⟩
  · rw [if_neg hs]
    simp only [List.mem_filter, List.any_eq_true, Bool.and_eq_true, beq_iff_eq]
    constructor
    · rintro ⟨⟨h1, h2⟩, v, hv, hvr, hvv⟩
      exact ⟨h1, h2, Or.inr ⟨v, hv, hvr, hvv⟩⟩
    · rintro ⟨h1, h2, hs2 | ⟨v, hv, hvr, hvv⟩⟩
      · exact absurd hs2 hs
      · exact ⟨⟨h1, h2⟩, v, hv, hvr, hvv⟩

/-- Witness for `searchRows_characterization` at the concrete search
fixture, literal `x`, row 2. -/
theorem searchRows_characterization_witness :
    ((⟨2, 1⟩ : RowRec) ∈ searchRows stSearch 1 (some "x")
        ↔ (⟨2, 1⟩ : RowRec) ∈ stSearch.rows ∧ (1 : Nat) = 1
            ∧ ("x" = "" ∨ ∃ v ∈ stSearch.values, v.rowId = 2 ∧ v.value = PyVal.str "x"))
      ∧ searchRows stSearch 1 Option.none = stSearch.rows.filter (fun r => r.tableId == 1) :=
  searchRows_characterization stSearch 1 "x" ⟨2, 1⟩

theorem tldOk_mono {p q : Char → Bool} (hpq : ∀ c, p c = true → q c = true)
    {t : List Char} (h : tldOk p t = true) : tldOk q t = true := by
  unfold tldOk at h ⊢
  simp only [Bool.and_eq_true, List.all_eq_true] at h ⊢
  exact ⟨h.1, fun c hc => hpq c (h.2 c hc)⟩

theorem domainSplit_mono {p q : Char → Bool} (hpq : ∀ c, p c = true → q c = true) :
    ∀ {rest dom : List Char}, domainSplit p dom rest = true → domainSplit q dom rest = true := by
  intro rest
  induction rest with
  | nil => intro dom h; simp [domainSplit] at h
  | cons c rs ih =>
    intro dom h
    have hexp : domainSplit p dom (c :: rs)
        = ((decide (c = '.') && !dom.isEmpty && dom.all domainChar && tldOk p rs)
            || domainSplit p (dom ++ [c]) rs) := rfl
    have hexq : domainSplit q dom (c :: rs)
        = ((decide (c = '.') && !dom.isEmpty && dom.all domainChar && tldOk q rs)
            || domainSplit q (dom ++ [c]) rs) := rfl
    rw [hexp] at h
    rw [hexq]
    simp only [Bool.or_eq_true, Bool.and_eq_true] at h ⊢
    rcases h with ⟨⟨⟨h1, h2⟩, h3⟩, h4⟩ | hr
    · exact Or.inl ⟨⟨⟨h1, h2⟩, h3⟩, tldOk_mono hpq h4⟩
    · exact Or.inr (ih hr)

theorem emailCore_mono {p q : Char → Bool} (hpq : ∀ c, p c = true → q c = true)
    {cs : List Char} (h : emailCore p cs = true) : emailCore q cs = true := by
  unfold emailCore at h ⊢
  revert h
  cases hsp : splitAtFirst '@' cs with
  | none => intro h; simp at h
  | some pr =>
    obtain ⟨loc, rest⟩ := pr
    intro h
    dsimp only at h ⊢
    simp only [Bool.and_eq_true] at h ⊢
    rcases h with ⟨⟨⟨⟨h1, h2⟩, h3⟩, h4⟩, h5⟩
    exact ⟨⟨⟨⟨h1, h2⟩, domainSplit_mono hpq h3⟩, h4⟩, h5⟩

theorem specTld_le_tld : ∀ c, specTldChar c = true → tldChar c = true := by
  intro c h
  unfold specTldChar at h
  unfold tldChar
  simp only [Bool.or_eq_true] at h ⊢
  tauto

/-- C4 amended: validating a string against the `email` base type
succeeds exactly when the whole string matches the source pattern
`\b[A-Za-z0-9._%+-]+@[A-Za-z0-9.-]+\.[A-Z|a-z]{2,}\b` — whose
top-level-domain class, because of the literal `|` inside `[A-Z|a-z]`,
also accepts the vertical bar (see `email_regex_accepts_bar_in_tld`).
Every string matching the spec's written pattern (tld class `[A-Za-z]`)
is still accepted: the source class only widens the spec's. -/
theorem email_validate_matches_source_pattern (s : String) :
    (validate "email" (.str s) = .ok () ↔ emailFullmatch s = true)
      ∧ (specEmailFullmatch s = true → emailFullmatch s = true) := by
  constructor
  · have hred : validate "email" (.str s)
        = (if emailFullmatch s then Except.ok ()
           else .error (.typeMismatch "email" (.str s))) := rfl
    rw [hred]
    by_cases he : emailFullmatch s = true
    · rw [if_pos he]
      simp [he]
    · rw [if_neg he]
      constructor
      · intro hc; exact absurd (Except.noConfusion hc) id
      · intro hc; exact absurd hc he
  · intro h
    unfold specEmailFullmatch at h
    unfold emailFullmatch
    exact emailCore_mono specTld_le_tld h

/-- Witness for `email_validate_matches_source_pattern`: the address
`ab@cd.ef` matches the spec pattern, hence the source pattern. -/
theorem email_validate_matches_source_pattern_witness :
    emailFullmatch "ab@cd.ef" = true :=
  (email_validate_matches_source_pattern "ab@cd.ef").2 (by rfl)

theorem columnSave_ok {st st' : DBState} {tid cid : Nat} {name : String} {info : ColumnInfo}
    (h : columnSave st tid name info = .ok (st', cid)) :
    st'.columns = st.columns ++ [⟨st.nextId, name, tid, info⟩] ∧ cid = st.nextId := by
  unfold columnSave at h
  by_cases hn : 250 < name.length
  · rw [if_pos hn] at h; exact Except.noConfusion h
  · rw [if_neg hn] at h
    cases hcl : columnClean info with
    | error e => rw [hcl] at h; exact Except.noConfusion h
    | ok u =>
      rw [hcl] at h
      by_cases hdup : (st.columns.any fun c => c.name == name && c.tableId == tid) = true
      · rw [if_pos hdup] at h; exact Except.noConfusion h
      · rw [if_neg hdup] at h
        injection h with h2
        rw [Prod.mk.injEq] at h2
        obtain ⟨h3, h4⟩ := h2
        refine ⟨?_, h4.symm⟩
        rw [← h3]

/-- C8 amended: what a successful column creation stores as the default.
When the request omits `default`, a non-enum column receives the
builtin default of its type (which is validated against the type), and
an enum column receives the first `available_values` entry.  When the
request supplies an explicit default, a non-enum column's stored
default is validated against the type — but an enum column's explicit
default is stored exactly as submitted, without any conformance or
membership check (see `enum_explicit_default_unchecked`). -/
theorem createColumn_default_characterization (st st' : DBState) (tid cid : Nat)
    (name : String) (data : ColumnDescriptor)
    (h : createColumn st tid name data = .ok (st', cid)) :
    ∃ c : ColumnRec, st'.columns = st.columns ++ [c] ∧ c.id = cid
      ∧ c.name = name ∧ c.tableId = tid
      ∧ ((c.info.type ≠ "enum"
            ∧ validate c.info.type c.info.default = .ok ()
            ∧ (data.default = Option.none → c.info.default = columnDefault c.info.type))
        ∨ (c.info.type = "enum"
            ∧ ∃ av, c.info.availableValues = some av
              ∧ (data.default = Option.none → av.head? = some c.info.default)
              ∧ ∀ d, data.default = some d → c.info.default = d)) := by
  unfold createColumn at h
  by_cases hn : 250 < name.length
  · rw [if_pos hn] at h; exact Except.noConfusion h
  · rw [if_neg hn] at h
    by_cases htid : tid ∈ st.tables
    · rw [if_pos htid] at h
      by_cases hrows : (st.rows.any fun r => r.tableId == tid) = true
      · rw [if_pos hrows] at h; exact Except.noConfusion h
      · rw [if_neg hrows] at h
        dsimp only at h
        by_cases hhv : hasValue (data.type.getD "no_type_provided_error") = true
        · rw [if_pos hhv] at h
          by_cases hen : data.type.getD "no_type_provided_error" = "enum"
          · rw [if_pos hen] at h
            cases hav : data.availableValues with
            | none =>
              rw [hav] at h
              cases hct : data.columnType with
              | none => rw [hct] at h; exact Except.noConfusion h
              | some ct => rw [hct] at h; exact Except.noConfusion h
            | some av =>
              rw [hav] at h
              cases hct : data.columnType with
              | none => rw [hct] at h; exact Except.noConfusion h
              | some ct =>
                rw [hct] at h
                dsimp only at h
                cases hd : data.default with
                | some d0 =>
                  rw [hd] at h
                  dsimp only at h
                  by_cases hctok : (hasValue ct && !(ct == "enum")) = true
                  · rw [if_pos hctok] at h
                    cases hvl : validateList ct av with
                    | error e => rw [hvl] at h; exact Except.noConfusion h
                    | ok u =>
                      rw [hvl] at h
                      obtain ⟨hcols, hcid⟩ := columnSave_ok h
                      refine ⟨⟨st.nextId, name, tid, ⟨"enum", d0, some ct, some av⟩⟩,
                        hcols, hcid.symm, rfl, rfl,
                        Or.inr ⟨rfl, av, rfl, ?_, ?_⟩⟩
                      · intro hdn
                        exact Option.noConfusion hdn
                      · intro d hdd
                        cases hdd
                        rfl
                  · rw [if_neg hctok] at h; exact Except.noConfusion h
                | none =>
                  rw [hd] at h
                  dsimp only at h
                  cases av with
                  | nil => exact Except.noConfusion h
                  | cons x xs =>
                    dsimp only at h
                    by_cases hctok : (hasValue ct && !(ct == "enum")) = true
                    · rw [if_pos hctok] at h
                      cases hvl : validateList ct (x :: xs) with
                      | error e => rw [hvl] at h; exact Except.noConfusion h
                      | ok u =>
                        rw [hvl] at h
                        obtain ⟨hcols, hcid⟩ := columnSave_ok h
                        refine ⟨⟨st.nextId, name, tid, ⟨"enum", x, some ct, some (x :: xs)⟩⟩,
                          hcols, hcid.symm, rfl, rfl,
                          Or.inr ⟨rfl, x :: xs, rfl, ?_, ?_⟩⟩
                        · intro _; rfl
                        · intro d hdd
                          exact Option.noConfusion hdd
                    · rw [if_neg hctok] at h; exact Except.noConfusion h
          · rw [if_neg hen] at h
            cases hval : validate (data.type.getD "no_type_provided_error")
                (data.default.getD (columnDefault (data.type.getD "no_type_provided_error"))) with
            | error e => rw [hval] at h; exact Except.noConfusion h
            | ok u =>
              rw [hval] at h
              obtain ⟨hcols, hcid⟩ := columnSave_ok h
              refine ⟨⟨st.nextId, name, tid,
                ⟨data.type.getD "no_type_provided_error",
                 data.default.getD (columnDefault (data.type.getD "no_type_provided_error")),
                 Option.none, Option.none⟩⟩,
                hcols, hcid.symm, rfl, rfl, Or.inl ⟨hen, hval, ?_⟩⟩
              intro hdn
              rw [hdn]
              rfl
        · rw [if_neg hhv] at h; exact Except.noConfusion h
    · rw [if_neg htid] at h; exact Except.noConfusion h

/-- Witness for `createColumn_default_characterization`: creating an
`int` column with omitted default on the empty table stores the builtin
default 0. -/
theorem createColumn_default_witness :
    ∃ c : ColumnRec, stEmptyInt.columns = stEmpty.columns ++ [c] ∧ c.id = 2
      ∧ c.name = "c" ∧ c.tableId = 1
      ∧ ((c.info.type ≠ "enum"
            ∧ validate c.info.type c.info.default = .ok ()
            ∧ (descInt.default = Option.none → c.info.default = columnDefault c.info.type))
        ∨ (c.info.type = "enum"
            ∧ ∃ av, c.info.availableValues = some av
              ∧ (descInt.default = Option.none → av.head? = some c.info.default)
              ∧ ∀ d, descInt.default = some d → c.info.default = d)) :=
  createColumn_default_characterization stEmpty stEmptyInt 1 2 "c" descInt (by decide)

theorem columnSave_enum_ok {st : DBState} {tid : Nat} {name : String}
    (hn : ¬250 < name.length)
    (hfresh : ¬(st.columns.any fun c => c.name == name && c.tableId == tid) = true)
    {d : PyVal} {ct : String} {av : List PyVal}
    (hdnn : d ≠ PyVal.null) (hctok : (hasValue ct && !(ct == "enum")) = true)
    (hvl : validateList ct av = .ok ()) :
    columnSave st tid name ⟨"enum", d, some ct, some av⟩
      = .ok ({ st with
          columns := st.columns ++ [⟨st.nextId, name, tid, ⟨"enum", d, some ct, some av⟩⟩],
          nextId := st.nextId + 1 }, st.nextId) := by
  have hclean : columnClean ⟨"enum", d, some ct, some av⟩ = .ok () := by
    unfold columnClean
    dsimp only
    rw [if_pos (show hasValue "enum" = true from rfl)]
    rw [if_neg hdnn]
    rw [if_neg (show ¬("enum" : String) ≠ "enum" from fun hc => hc rfl)]
    rw [if_pos hctok]
    exact hvl
  unfold columnSave
  rw [if_neg hn, hclean]
  dsimp only
  rw [if_neg hfresh]

/-- C9 amended: for an enum descriptor carrying both `column_type` and
`available_values`, creation succeeds iff the member type is a
recognised non-enum type and every member validates against it — and,
in addition, an explicit default is given or `available_values` is
non-empty: with an empty member list and no default, the lookup
`available_values[0]` raises an `IndexError` before any other check
(see `enum_empty_available_values_index_error`). -/
theorem enum_column_creation_iff (st : DBState) (tid : Nat) (name : String)
    (data : ColumnDescriptor) (ct : String) (av : List PyVal)
    (htid : tid ∈ st.tables)
    (hrows : st.rows.any (fun r => r.tableId == tid) = false)
    (hname : name.length ≤ 250)
    (hfresh : st.columns.any (fun c => c.name == name && c.tableId == tid) = false)
    (htype : data.type = some "enum")
    (hct : data.columnType = some ct)
    (hav : data.availableValues = some av)
    (hdef : data.default ≠ some PyVal.null) :
    (∃ st' cid, createColumn st tid name data = .ok (st', cid))
      ↔ (hasValue ct = true ∧ ct ≠ "enum"
          ∧ (∀ v ∈ av, validate ct v = .ok ())
          ∧ (data.default ≠ Option.none ∨ av ≠ [])) := by
  have hn : ¬250 < name.length := Nat.not_lt.mpr hname
  have hrows' : ¬(st.rows.any fun r => r.tableId == tid) = true := by
    rw [hrows]; exact Bool.false_ne_true
  have hfresh' : ¬(st.columns.any fun c => c.name == name && c.tableId == tid) = true := by
    rw [hfresh]; exact Bool.false_ne_true
  constructor
  · rintro ⟨st', cid, h⟩
    unfold createColumn at h
    rw [if_neg hn, if_pos htid, if_neg hrows'] at h
    dsimp only at h
    rw [htype] at h
    rw [show (some "enum").getD "no_type_provided_error" = "enum" from rfl] at h
    rw [if_pos (show hasValue "enum" = true from rfl)] at h
    rw [if_pos (show ("enum" : String) = "enum" from rfl)] at h
    rw [hav, hct] at h
    dsimp only at h
    cases hd : data.default with
    | some d0 =>
      rw [hd] at h
      dsimp only at h
      by_cases hctok : (hasValue ct && !(ct == "enum")) = true
      · rw [if_pos hctok] at h
        cases hvl : validateList ct av with
        | error e => rw [hvl] at h; exact Except.noConfusion h
        | ok u =>
          simp only [Bool.and_eq_true, Bool.not_eq_true', beq_eq_false_iff_ne] at hctok
          refine ⟨hctok.1, hctok.2, ?_, Or.inl ?_⟩
          · intro v hv
            cases u
            exact validateList_ok_iff.mp hvl v hv
          · intro hc; exact Option.noConfusion hc
      · rw [if_neg hctok] at h; exact Except.noConfusion h
    | none =>
      rw [hd] at h
      dsimp only at h
      rcases av with - | ⟨x, xs⟩
      · exact Except.noConfusion h
      · dsimp only at h
        by_cases hctok : (hasValue ct && !(ct == "enum")) = true
        · rw [if_pos hctok] at h
          cases hvl : validateList ct (x :: xs) with
          | error e => rw [hvl] at h; exact Except.noConfusion h
          | ok u =>
            simp only [Bool.and_eq_true, Bool.not_eq_true', beq_eq_false_iff_ne] at hctok
            refine ⟨hctok.1, hctok.2, ?_, Or.inr ?_⟩
            · intro v hv
              cases u
              exact validateList_ok_iff.mp hvl v hv
            · intro hc; exact List.noConfusion hc
        · rw [if_neg hctok] at h; exact Except.noConfusion h
  · rintro ⟨h1, h2, h3, h4⟩
    have hctok : (hasValue ct && !(ct == "enum")) = true := by
      simp only [Bool.and_eq_true, Bool.not_eq_true', beq_eq_false_iff_ne]
      exact ⟨h1, h2⟩
    have hvl : validateList ct av = .ok () := validateList_ok_iff.mpr h3
    cases hd : data.default with
    | some d0 =>
      have hdnn : d0 ≠ PyVal.null := fun hc => hdef (by rw [hd, hc])
      refine ⟨{ st with
          columns := st.columns ++ [⟨st.nextId, name, tid, ⟨"enum", d0, some ct, some av⟩⟩],
          nextId := st.nextId + 1 }, st.nextId, ?_⟩
      unfold createColumn
      rw [if_neg hn, if_pos htid, if_neg hrows']
      dsimp only
      rw [htype]
      rw [show (some "enum").getD "no_type_provided_error" = "enum" from rfl]
      rw [if_pos (show hasValue "enum" = true from rfl)]
      rw [if_pos (show ("enum" : String) = "enum" from rfl)]
      rw [hav, hct]
      dsimp only
      rw [hd]
      dsimp only
      rw [if_pos hctok, hvl]
      exact columnSave_enum_ok hn hfresh' hdnn hctok hvl
    | none =>
      have hne : av ≠ [] := by
        rcases h4 with h4l | h4r
        · exact absurd hd h4l
        · exact h4r
      rcases hx : av with - | ⟨x, xs⟩
      · exact absurd hx hne
      · have hxmem : x ∈ av := by rw [hx]; exact List.mem_cons_self _ _
        have hxok := h3 x hxmem
        have hdnn : x ≠ PyVal.null := by
          intro hc
          rw [hc] at hxok
          exact validate_null_ne_ok h1 h2 hxok
        refine ⟨{ st with
            columns := st.columns
              ++ [⟨st.nextId, name, tid, ⟨"enum", x, some ct, some (x :: xs)⟩⟩],
            nextId := st.nextId + 1 }, st.nextId, ?_⟩
        unfold createColumn
        rw [if_neg hn, if_pos htid, if_neg hrows']
        dsimp only
        rw [htype]
        rw [show (some "enum").getD "no_type_provided_error" = "enum" from rfl]
        rw [if_pos (show hasValue "enum" = true from rfl)]
        rw [if_pos (show ("enum" : String) = "enum" from rfl)]
        rw [hav, hct]
        dsimp only
        rw [hd]
        dsimp only
        rw [hx]
        dsimp only
        rw [if_pos hctok]
        rw [hx] at hvl
        rw [hvl]
        exact columnSave_enum_ok hn hfresh' hdnn hctok hvl

/-- Witness for `enum_column_creation_iff`: the descriptor with member
type `string`, members `user`/`admin` and no default satisfies the
right-hand side, so creation on the empty table succeeds. -/
theorem enum_column_creation_iff_witness :
    ∃ st' cid, createColumn stEmpty 1 "c" descEnumGood = .ok (st', cid) :=
  (enum_column_creation_iff stEmpty 1 "c" descEnumGood "string"
    [.str "user", .str "admin"] (by decide) (by decide) (by decide) (by decide)
    rfl rfl rfl (by decide)).mpr (by decide)
